import Mathlib

/-!
Verification of the options-analytics engine (Analysis.js / StrategyForm.js).

The pure numeric core is shallowly embedded:
* exact price/payoff arithmetic (the sweep loops) over `ℚ`;
* transcendental Black-Scholes formulas over `ℝ`;
* the JavaScript special values `Infinity` / `-Infinity` / `NaN`, which the
  claims about division-by-zero guards depend on, via the type `JSVal`
  (exact real arithmetic extended with IEEE special-value propagation).
-/

set_option maxRecDepth 10000

namespace OptionsAnalyzer

/-- Option kind of a leg (`option.type` in the source). -/
inductive OptionType where
  | call : OptionType
  | put : OptionType
deriving DecidableEq, Repr

/-- Trade direction of a leg (`option.action` in the source). -/
inductive Action where
  | buy : Action
  | sell : Action
deriving DecidableEq, Repr

/-- One option leg, as consumed by Analysis.js.  `volatility` is `none` when
the field is absent (the source then falls back to the 0.2 default). -/
structure Leg where
  strike : ℚ
  type : OptionType
  action : Action
  quantity : ℚ
  premium : ℚ
  volatility : Option ℚ := none
deriving DecidableEq, Repr

/-- Per-leg payoff at a hypothetical price; the four branches of
Analysis.js lines 153-165 (and the identical copies at 188-200, 221-233,
261-273). -/
def legPayoff {α : Type} [LinearOrderedField α] (o : Leg) (price : α) : α :=
  match o.type, o.action with
  | .call, .buy => max 0 (price - (o.strike : α)) - (o.premium : α)
  | .call, .sell => (o.premium : α) - max 0 (price - (o.strike : α))
  | .put, .buy => max 0 ((o.strike : α) - price) - (o.premium : α)
  | .put, .sell => (o.premium : α) - max 0 ((o.strike : α) - price)

/-- Total payoff of a strategy at one price: `payoff += optionPayoff * option.quantity`
accumulated over the legs (Analysis.js line 167). -/
def totalPayoff {α : Type} [LinearOrderedField α] (options : List Leg) (price : α) : α :=
  options.foldl (fun acc o => acc + legPayoff o price * (o.quantity : α)) 0

/-- The step-1 sweep prices `50, 51, ..., 250` of the max-profit / max-loss
loops (`for (let price = 50; price <= 250; price += 1)`). -/
def sweepPrices : List ℚ :=
  (List.range 201).map (fun i : ℕ => 50 + (i : ℚ))

/-- The step-0.5 sweep prices `50, 50.5, ..., 250` of the breakeven loop
(`for (let price = 50; price <= 250; price += 0.5)`; the step is exactly
representable, so the float loop visits exactly these 401 values). -/
def halfStepPrices : List ℚ :=
  (List.range 401).map (fun i : ℕ => 50 + (i : ℚ) / 2)

/-- `calculateMaxProfit` (Analysis.js 178-209): running maximum over the
step-1 sweep, accumulator seeded at 0. -/
def calculateMaxProfit (options : List Leg) : ℚ :=
  sweepPrices.foldl (fun maxProfit price => max maxProfit (totalPayoff options price)) 0

/-- `calculateMaxLoss` (Analysis.js 211-242): running minimum over the
step-1 sweep, accumulator seeded at 0. -/
def calculateMaxLoss (options : List Leg) : ℚ :=
  sweepPrices.foldl (fun maxLoss price => min maxLoss (totalPayoff options price)) 0

/-- `calculateBreakeven` (Analysis.js 138-176): collect every sweep price
whose absolute total payoff is below 0.01, in sweep order. -/
def calculateBreakeven (options : List Leg) : List ℚ :=
  halfStepPrices.foldl
    (fun breakevens price =>
      if |totalPayoff options price| < 1 / 100 then breakevens ++ [price] else breakevens)
    []

/-- The five Greeks of one evaluation point. -/
@[ext]
structure Greeks where
  delta : ℝ
  gamma : ℝ
  theta : ℝ
  vega : ℝ
  rho : ℝ

/-- The error-function approximation of Analysis.js lines 102-118
(Abramowitz-Stegun, coefficients a1..a5 and p). -/
noncomputable def erf (x : ℝ) : ℝ :=
  let a1 : ℝ := 0.254829592
  let a2 : ℝ := -0.284496736
  let a3 : ℝ := 1.421413741
  let a4 : ℝ := -1.453152027
  let a5 : ℝ := 1.061405429
  let p : ℝ := 0.3275911
  let sign : ℝ := if 0 ≤ x then 1 else -1
  let x' := |x|
  let t := 1.0 / (1.0 + p * x')
  let y := 1.0 - (((((a5 * t + a4) * t) + a3) * t + a2) * t + a1) * t * Real.exp (-x' * x')
  sign * y

/-- `normCDF` of Analysis.js lines 94-96. -/
noncomputable def normCDF (x : ℝ) : ℝ :=
  0.5 * (1 + erf (x / Real.sqrt 2))

/-- `normPDF` of Analysis.js lines 98-100. -/
noncomputable def normPDF (x : ℝ) : ℝ :=
  Real.exp (-0.5 * x * x) / Real.sqrt (2 * Real.pi)

/-- `calculateBlackScholesGreeks` (Analysis.js 90-136), with the reported
scalings `theta/365`, `vega/100`, `rho/100` applied on return. -/
noncomputable def calculateBlackScholesGreeks (S K T r sigma : ℝ) (optionType : OptionType) : Greeks :=
  let d1 := (Real.log (S / K) + (r + 0.5 * sigma * sigma) * T) / (sigma * Real.sqrt T)
  let d2 := d1 - sigma * Real.sqrt T
  let delta := match optionType with
    | .call => normCDF d1
    | .put => normCDF d1 - 1
  let theta := match optionType with
    | .call => -(S * normPDF d1 * sigma) / (2 * Real.sqrt T) - r * K * Real.exp (-r * T) * normCDF d2
    | .put => -(S * normPDF d1 * sigma) / (2 * Real.sqrt T) + r * K * Real.exp (-r * T) * normCDF (-d2)
  let rho := match optionType with
    | .call => K * T * Real.exp (-r * T) * normCDF d2
    | .put => -(K * T * Real.exp (-r * T) * normCDF (-d2))
  let gamma := normPDF d1 / (S * sigma * Real.sqrt T)
  let vega := S * normPDF d1 * Real.sqrt T
  { delta := delta, gamma := gamma, theta := theta / 365, vega := vega / 100, rho := rho / 100 }

/-- `(action === 'buy' ? 1 : -1) * quantity` (Analysis.js line 72). -/
def legMultiplier (o : Leg) : ℚ :=
  (match o.action with
   | .buy => 1
   | .sell => -1) * o.quantity

/-- Per-leg Greeks as evaluated inside `calculateGreeks` (Analysis.js 58-70):
fixed `timeToExpiry = 30/365`, `riskFreeRate = 0.05`, destructuring default
`volatility = 0.2`. -/
noncomputable def legGreeksAt (spotPrice : ℝ) (o : Leg) : Greeks :=
  calculateBlackScholesGreeks spotPrice (o.strike : ℝ) (30 / 365) 0.05
    ((o.volatility.getD 0.2 : ℚ) : ℝ) o.type

/-- `calculateGreeks` (Analysis.js 51-88): signed quantity-weighted sum of
the per-leg Greeks, accumulators seeded at 0. -/
noncomputable def calculateGreeks (options : List Leg) (spotPrice : ℝ) : Greeks :=
  options.foldl
    (fun tot o =>
      let greeks := legGreeksAt spotPrice o
      let multiplier : ℝ := ((legMultiplier o : ℚ) : ℝ)
      { delta := tot.delta + greeks.delta * multiplier,
        gamma := tot.gamma + greeks.gamma * multiplier,
        theta := tot.theta + greeks.theta * multiplier,
        vega := tot.vega + greeks.vega * multiplier,
        rho := tot.rho + greeks.rho * multiplier })
    ⟨0, 0, 0, 0, 0⟩

/-- Spec-side d1, written from the spec's words:
`d1 = (ln(S/K) + (r + 0.5 sigma^2)T)/(sigma sqrt(T))`. -/
noncomputable def specD1 (S K T r sigma : ℝ) : ℝ :=
  (Real.log (S / K) + (r + 0.5 * sigma ^ 2) * T) / (sigma * Real.sqrt T)

/-- Spec-side d2: `d2 = d1 - sigma sqrt(T)`. -/
noncomputable def specD2 (S K T r sigma : ℝ) : ℝ :=
  specD1 S K T r sigma - sigma * Real.sqrt T

/-- Spec-side error function: the Abramowitz-Stegun approximation with the
coefficients listed in the spec. -/
noncomputable def specErf (x : ℝ) : ℝ :=
  let a1 : ℝ := 0.254829592
  let a2 : ℝ := -0.284496736
  let a3 : ℝ := 1.421413741
  let a4 : ℝ := -1.453152027
  let a5 : ℝ := 1.061405429
  let p : ℝ := 0.3275911
  let sign : ℝ := if 0 ≤ x then 1 else -1
  let x' := |x|
  let t := 1.0 / (1.0 + p * x')
  let y := 1.0 - (((((a5 * t + a4) * t) + a3) * t + a2) * t + a1) * t * Real.exp (-x' * x')
  sign * y

/-- Spec-side normal CDF: `N` computed via the spec's erf approximation. -/
noncomputable def specNormCDF (x : ℝ) : ℝ :=
  0.5 * (1 + specErf (x / Real.sqrt 2))

/-- Spec-side standard normal density `n`. -/
noncomputable def specNormPDF (x : ℝ) : ℝ :=
  Real.exp (-0.5 * x * x) / Real.sqrt (2 * Real.pi)

/-- Spec-side per-leg Greek formulas from the claim: every reported Greek of
`calculateBlackScholesGreeks` equals the stated Black-Scholes closed form,
with theta/365, vega/100, rho/100 scaling and delta, gamma unscaled. -/
noncomputable def BlackScholesLegSpec (S K T r sigma : ℝ) : Prop :=
  (calculateBlackScholesGreeks S K T r sigma OptionType.call).delta =
      specNormCDF (specD1 S K T r sigma) ∧
  (calculateBlackScholesGreeks S K T r sigma OptionType.put).delta =
      specNormCDF (specD1 S K T r sigma) - 1 ∧
  (∀ ty : OptionType, (calculateBlackScholesGreeks S K T r sigma ty).gamma =
      specNormPDF (specD1 S K T r sigma) / (S * sigma * Real.sqrt T)) ∧
  (∀ ty : OptionType, (calculateBlackScholesGreeks S K T r sigma ty).vega =
      S * specNormPDF (specD1 S K T r sigma) * Real.sqrt T / 100) ∧
  (calculateBlackScholesGreeks S K T r sigma OptionType.call).theta =
      (-(S * specNormPDF (specD1 S K T r sigma) * sigma) / (2 * Real.sqrt T) -
        r * K * Real.exp (-(r * T)) * specNormCDF (specD2 S K T r sigma)) / 365 ∧
  (calculateBlackScholesGreeks S K T r sigma OptionType.put).theta =
      (-(S * specNormPDF (specD1 S K T r sigma) * sigma) / (2 * Real.sqrt T) +
        r * K * Real.exp (-(r * T)) * specNormCDF (-specD2 S K T r sigma)) / 365 ∧
  (calculateBlackScholesGreeks S K T r sigma OptionType.call).rho =
      K * T * Real.exp (-(r * T)) * specNormCDF (specD2 S K T r sigma) / 100 ∧
  (calculateBlackScholesGreeks S K T r sigma OptionType.put).rho =
      -(K * T * Real.exp (-(r * T)) * specNormCDF (-specD2 S K T r sigma)) / 100

/-- Spec-side aggregate Greeks: each leg evaluated at `T = 30/365`,
`r = 0.05`, the leg's own volatility (default 0.20), weighted by
`(+1 if buy else -1) * quantity` and summed. -/
noncomputable def specAggregateGreeks (options : List Leg) (spot : ℝ) : Greeks where
  delta := (options.map fun o => ((if o.action = Action.buy then (1 : ℝ) else -1) * (o.quantity : ℝ)) *
    (calculateBlackScholesGreeks spot (o.strike : ℝ) (30 / 365) 0.05 ((o.volatility.getD 0.2 : ℚ) : ℝ) o.type).delta).sum
  gamma := (options.map fun o => ((if o.action = Action.buy then (1 : ℝ) else -1) * (o.quantity : ℝ)) *
    (calculateBlackScholesGreeks spot (o.strike : ℝ) (30 / 365) 0.05 ((o.volatility.getD 0.2 : ℚ) : ℝ) o.type).gamma).sum
  theta := (options.map fun o => ((if o.action = Action.buy then (1 : ℝ) else -1) * (o.quantity : ℝ)) *
    (calculateBlackScholesGreeks spot (o.strike : ℝ) (30 / 365) 0.05 ((o.volatility.getD 0.2 : ℚ) : ℝ) o.type).theta).sum
  vega := (options.map fun o => ((if o.action = Action.buy then (1 : ℝ) else -1) * (o.quantity : ℝ)) *
    (calculateBlackScholesGreeks spot (o.strike : ℝ) (30 / 365) 0.05 ((o.volatility.getD 0.2 : ℚ) : ℝ) o.type).vega).sum
  rho := (options.map fun o => ((if o.action = Action.buy then (1 : ℝ) else -1) * (o.quantity : ℝ)) *
    (calculateBlackScholesGreeks spot (o.strike : ℝ) (30 / 365) 0.05 ((o.volatility.getD 0.2 : ℚ) : ℝ) o.type).rho).sum

/-- Simulated terminal price of one Monte Carlo trial (Analysis.js 253-255):
`currentPrice * exp((u - 0.5) * volatility * sqrt(timeToExpiry) * 2)` with
`volatility = 0.2`, `timeToExpiry = 30/365`, `u` the uniform draw. -/
noncomputable def simulatedPrice (currentPrice u : ℝ) : ℝ :=
  currentPrice * Real.exp ((u - 0.5) * 0.2 * Real.sqrt (30 / 365) * 2)

/-- The count of profitable trials among the 1000 simulations
(Analysis.js 249-281); trial `i` uses the uniform draw `u i`. -/
noncomputable def profitableOutcomes (options : List Leg) (currentPrice : ℝ) (u : ℕ → ℝ) : ℕ :=
  (List.range 1000).foldl
    (fun acc i =>
      if 0 < totalPayoff options (simulatedPrice currentPrice (u i)) then acc + 1 else acc)
    0

/-- `calculateProbabilityOfProfit` (Analysis.js 244-284):
`(profitableOutcomes / numSimulations) * 100` with `numSimulations = 1000`. -/
noncomputable def calculateProbabilityOfProfit (options : List Leg) (currentPrice : ℝ)
    (u : ℕ → ℝ) : ℝ :=
  ((profitableOutcomes options currentPrice u : ℝ) / 1000) * 100

/-- JavaScript floating-point values, idealized: exact reals plus the IEEE
special values `Infinity`, `-Infinity`, `NaN`.  The claims about division
guards are claims about these special values, which plain `ℝ` (where
`x / 0 = 0`) cannot express. -/
inductive JSVal where
  | num : ℝ → JSVal
  | inf : JSVal
  | ninf : JSVal
  | nan : JSVal

/-- JS unary minus. -/
noncomputable def jsNeg : JSVal → JSVal
  | .num a => .num (-a)
  | .inf => .ninf
  | .ninf => .inf
  | .nan => .nan

/-- JS addition with special-value propagation. -/
noncomputable def jsAdd : JSVal → JSVal → JSVal
  | .nan, _ => .nan
  | _, .nan => .nan
  | .inf, .ninf => .nan
  | .ninf, .inf => .nan
  | .inf, _ => .inf
  | _, .inf => .inf
  | .ninf, _ => .ninf
  | _, .ninf => .ninf
  | .num a, .num b => .num (a + b)

/-- JS subtraction: `a - b = a + (-b)`. -/
noncomputable def jsSub (x y : JSVal) : JSVal :=
  jsAdd x (jsNeg y)

/-- JS multiplication with special-value propagation
(`0 * Infinity = NaN`). -/
noncomputable def jsMul : JSVal → JSVal → JSVal
  | .nan, _ => .nan
  | _, .nan => .nan
  | .num a, .num b => .num (a * b)
  | .num a, .inf => if a = 0 then .nan else if 0 < a then .inf else .ninf
  | .inf, .num b => if b = 0 then .nan else if 0 < b then .inf else .ninf
  | .num a, .ninf => if a = 0 then .nan else if 0 < a then .ninf else .inf
  | .ninf, .num b => if b = 0 then .nan else if 0 < b then .ninf else .inf
  | .inf, .inf => .inf
  | .inf, .ninf => .ninf
  | .ninf, .inf => .ninf
  | .ninf, .ninf => .inf

/-- JS division with special-value propagation: `0/0 = NaN`,
`x/0 = ±Infinity` for `x ≠ 0`. -/
noncomputable def jsDiv : JSVal → JSVal → JSVal
  | .nan, _ => .nan
  | _, .nan => .nan
  | .num a, .num b =>
      if b = 0 then (if a = 0 then .nan else if 0 < a then .inf else .ninf)
      else .num (a / b)
  | .num _, .inf => .num 0
  | .num _, .ninf => .num 0
  | .inf, .num b => if 0 ≤ b then .inf else .ninf
  | .ninf, .num b => if 0 ≤ b then .ninf else .inf
  | .inf, .inf => .nan
  | .inf, .ninf => .nan
  | .ninf, .inf => .nan
  | .ninf, .ninf => .nan

/-- `Math.abs`. -/
noncomputable def jsAbs : JSVal → JSVal
  | .num a => .num |a|
  | .inf => .inf
  | .ninf => .inf
  | .nan => .nan

/-- `Math.sqrt` (negative argument gives `NaN`). -/
noncomputable def jsSqrt : JSVal → JSVal
  | .num a => if 0 ≤ a then .num (Real.sqrt a) else .nan
  | .inf => .inf
  | .ninf => .nan
  | .nan => .nan

/-- `Math.exp`. -/
noncomputable def jsExp : JSVal → JSVal
  | .num a => .num (Real.exp a)
  | .inf => .inf
  | .ninf => .num 0
  | .nan => .nan

/-- `Math.log` (`log 0 = -Infinity`, negative argument gives `NaN`). -/
noncomputable def jsLog : JSVal → JSVal
  | .num a => if 0 < a then .num (Real.log a) else if a = 0 then .ninf else .nan
  | .inf => .inf
  | .ninf => .nan
  | .nan => .nan

/-- `Math.min` (`NaN` absorbs). -/
noncomputable def jsMin : JSVal → JSVal → JSVal
  | .nan, _ => .nan
  | _, .nan => .nan
  | .ninf, _ => .ninf
  | _, .ninf => .ninf
  | .inf, y => y
  | x, .inf => x
  | .num a, .num b => .num (min a b)

/-- `Math.max` (`NaN` absorbs). -/
noncomputable def jsMax : JSVal → JSVal → JSVal
  | .nan, _ => .nan
  | _, .nan => .nan
  | .inf, _ => .inf
  | _, .inf => .inf
  | .ninf, y => y
  | x, .ninf => x
  | .num a, .num b => .num (max a b)

/-- The source's `erf` (Analysis.js 102-118) over `JSVal`; in JS the test
`x >= 0` is false for `NaN`, so `sign` is then `-1`. -/
noncomputable def jsErf (x : JSVal) : JSVal :=
  let a1 : ℝ := 0.254829592
  let a2 : ℝ := -0.284496736
  let a3 : ℝ := 1.421413741
  let a4 : ℝ := -1.453152027
  let a5 : ℝ := 1.061405429
  let p : ℝ := 0.3275911
  let sign : JSVal := match x with
    | .num a => if 0 ≤ a then .num 1 else .num (-1)
    | .inf => .num 1
    | .ninf => .num (-1)
    | .nan => .num (-1)
  let x' := jsAbs x
  let t := jsDiv (.num 1) (jsAdd (.num 1) (jsMul (.num p) x'))
  let poly := jsAdd (jsMul (jsAdd (jsMul (jsAdd (jsMul (jsAdd (jsMul (.num a5) t) (.num a4)) t)
    (.num a3)) t) (.num a2)) t) (.num a1)
  let y := jsSub (.num 1) (jsMul (jsMul poly t) (jsExp (jsMul (jsNeg x') x')))
  jsMul sign y

/-- The source's `normCDF` (Analysis.js 94-96) over `JSVal`. -/
noncomputable def jsNormCDF (x : JSVal) : JSVal :=
  jsMul (.num 0.5) (jsAdd (.num 1) (jsErf (jsDiv x (jsSqrt (.num 2)))))

/-- The source's `normPDF` (Analysis.js 98-100) over `JSVal`. -/
noncomputable def jsNormPDF (x : JSVal) : JSVal :=
  jsDiv (jsExp (jsMul (jsMul (.num (-0.5)) x) x)) (jsSqrt (jsMul (.num 2) (.num Real.pi)))

/-- The five Greeks over `JSVal`. -/
structure JSGreeks where
  delta : JSVal
  gamma : JSVal
  theta : JSVal
  vega : JSVal
  rho : JSVal

/-- `calculateBlackScholesGreeks` (Analysis.js 90-136) over `JSVal`,
tracking the JavaScript special values through every operation. -/
noncomputable def jsBlackScholesGreeks (S K T r sigma : JSVal) (optionType : OptionType) :
    JSGreeks :=
  let d1 := jsDiv (jsAdd (jsLog (jsDiv S K)) (jsMul (jsAdd r (jsMul (jsMul (.num 0.5) sigma) sigma)) T))
    (jsMul sigma (jsSqrt T))
  let d2 := jsSub d1 (jsMul sigma (jsSqrt T))
  let delta := match optionType with
    | .call => jsNormCDF d1
    | .put => jsSub (jsNormCDF d1) (.num 1)
  let theta := match optionType with
    | .call => jsSub (jsDiv (jsNeg (jsMul (jsMul S (jsNormPDF d1)) sigma)) (jsMul (.num 2) (jsSqrt T)))
        (jsMul (jsMul (jsMul r K) (jsExp (jsMul (jsNeg r) T))) (jsNormCDF d2))
    | .put => jsAdd (jsDiv (jsNeg (jsMul (jsMul S (jsNormPDF d1)) sigma)) (jsMul (.num 2) (jsSqrt T)))
        (jsMul (jsMul (jsMul r K) (jsExp (jsMul (jsNeg r) T))) (jsNormCDF (jsNeg d2)))
  let rho := match optionType with
    | .call => jsMul (jsMul (jsMul K T) (jsExp (jsMul (jsNeg r) T))) (jsNormCDF d2)
    | .put => jsNeg (jsMul (jsMul (jsMul K T) (jsExp (jsMul (jsNeg r) T))) (jsNormCDF (jsNeg d2)))
  let gamma := jsDiv (jsNormPDF d1) (jsMul (jsMul S sigma) (jsSqrt T))
  let vega := jsMul (jsMul S (jsNormPDF d1)) (jsSqrt T)
  { delta := delta, gamma := gamma, theta := jsDiv theta (.num 365),
    vega := jsDiv vega (.num 100), rho := jsDiv rho (.num 100) }

/-- `option.volatility || 0.2` (Analysis.js 299): JS `||` also replaces a
present-but-zero volatility by the 0.2 default. -/
def timeDecayVol (o : Leg) : ℚ :=
  match o.volatility with
  | some v => if v = 0 then 0.2 else v
  | none => 0.2

/-- `calculateTimeDecay` (Analysis.js 286-314): 31 samples, `days` running
from 30 down to 0, each emitting `(daysElapsed = 30 - days, aggregate theta)`
with `timeToExpiry = days / 365`.  Evaluated over `JSVal`, because the final
sample has `T = 0`. -/
noncomputable def calculateTimeDecay (options : List Leg) (currentPrice : ℝ) :
    List (ℕ × JSVal) :=
  (List.range 31).map (fun k =>
    let days : ℕ := 30 - k
    let timeToExpiry : ℚ := (days : ℚ) / 365
    let totalTheta := options.foldl
      (fun acc o => jsAdd acc (jsMul
        (jsBlackScholesGreeks (.num currentPrice) (.num (o.strike : ℝ))
          (.num (timeToExpiry : ℝ)) (.num 0.05) (.num ((timeDecayVol o : ℚ) : ℝ)) o.type).theta
        (.num ((legMultiplier o : ℚ) : ℝ))))
      (.num 0)
    (30 - days, totalTheta))

/-- The volatility values visited by the loop
`for (let vol = 0.1; vol <= 0.5; vol += 0.05)`, embedded with fuel
(the loop terminates after 9 iterations). -/
def volLoopVols : ℕ → ℚ → List ℚ
  | 0, _ => []
  | fuel + 1, vol => if vol ≤ 0.5 then vol :: volLoopVols fuel (vol + 0.05) else []

/-- `calculateVolatilityImpact` (Analysis.js 316-343): for each visited
volatility, the signed quantity-weighted aggregate vega at `T = 30/365`,
`r = 0.05` and the given spot, emitted as `(vol * 100, totalVega)`. -/
noncomputable def calculateVolatilityImpact (options : List Leg) (spotPrice : ℝ) :
    List (ℚ × ℝ) :=
  (volLoopVols 100 0.1).map (fun vol =>
    let totalVega := options.foldl
      (fun acc o => acc +
        (calculateBlackScholesGreeks spotPrice (o.strike : ℝ) (30 / 365) 0.05
          ((vol : ℚ) : ℝ) o.type).vega * ((legMultiplier o : ℚ) : ℝ))
      0
    ((vol * 100 : ℚ), totalVega))

/-- `calculateRiskScore` (Analysis.js 538-551) as a function of the analysis
fields it reads, over `JSVal`. -/
noncomputable def calculateRiskScore (maxLoss probabilityOfProfit riskReward : JSVal) : JSVal :=
  let maxLossPercent := jsDiv (jsAbs maxLoss) (.num 1000)
  let profitProbability := jsDiv probabilityOfProfit (.num 100)
  let cappedRiskReward := jsMin riskReward (.num 3)
  jsMin (.num 10)
    (jsAdd (jsAdd (jsMul maxLossPercent (.num 3)) (jsMul (jsSub (.num 1) profitProbability) (.num 4)))
      (jsMul (jsMax (.num 0) (jsSub (.num 2) cappedRiskReward)) (.num 2)))

/-- The analysis record of Analysis.js lines 14-23 / 36-45. -/
structure AnalysisData where
  greeks : Option Greeks
  breakeven : List ℚ
  maxProfit : ℚ
  maxLoss : ℚ
  probabilityOfProfit : ℝ
  riskReward : JSVal
  timeDecay : List (ℕ × JSVal)
  volatilityImpact : List (ℚ × ℝ)

/-- The initial component state (Analysis.js 14-23): empty greeks object,
no breakevens, all scalars zero. -/
def initialAnalysisData : AnalysisData :=
  { greeks := none, breakeven := [], maxProfit := 0, maxLoss := 0,
    probabilityOfProfit := 0, riskReward := .num 0, timeDecay := [], volatilityImpact := [] }

/-- `calculateAnalysis` (Analysis.js 34-49), including the unguarded
`riskReward = maxProfit / Math.abs(maxLoss)` at line 47. -/
noncomputable def calculateAnalysis (options : List Leg) (currentPrice : ℝ) (u : ℕ → ℝ) :
    AnalysisData :=
  let analysis : AnalysisData :=
    { greeks := some (calculateGreeks options currentPrice),
      breakeven := calculateBreakeven options,
      maxProfit := calculateMaxProfit options,
      maxLoss := calculateMaxLoss options,
      probabilityOfProfit := calculateProbabilityOfProfit options currentPrice u,
      riskReward := .num 0,
      timeDecay := calculateTimeDecay options currentPrice,
      volatilityImpact := calculateVolatilityImpact options currentPrice }
  { analysis with
      riskReward := jsDiv (.num (analysis.maxProfit : ℝ)) (jsAbs (.num (analysis.maxLoss : ℝ))) }

/-- The component-level analysis state: the `useEffect` guard
(Analysis.js 28-32) runs `calculateAnalysis` only when the strategy has at
least one leg; otherwise the state keeps `initialAnalysisData`. -/
noncomputable def analysisDataFor (options : List Leg) (currentPrice : ℝ) (u : ℕ → ℝ) :
    AnalysisData :=
  if options.isEmpty then initialAnalysisData else calculateAnalysis options currentPrice u

/-- `determineStrategyType` (Analysis.js 553-579) for a present strategy. -/
def determineStrategyType (options : List Leg) : String :=
  let callOptions := options.filter (fun o => decide (o.type = OptionType.call))
  let putOptions := options.filter (fun o => decide (o.type = OptionType.put))
  let buyOptions := options.filter (fun o => decide (o.action = Action.buy))
  if options.length = 1 then
    if buyOptions.length = 1 then
      (if callOptions.length = 1 then "Long Call" else "Long Put")
    else
      (if callOptions.length = 1 then "Short Call" else "Short Put")
  else if options.length = 2 then
    if callOptions.length = 2 then "Call Spread"
    else if putOptions.length = 2 then "Put Spread"
    else "Straddle/Strangle"
  else "Complex Strategy"

/-- The strategy label actually rendered: the component returns the empty
view for a zero-leg strategy (Analysis.js 589-595), so no label is computed
or shown there. -/
def renderedStrategyLabel (options : List Leg) : Option String :=
  if options.isEmpty then none else some (determineStrategyType options)

/-- The numeric form fields validated by `validateForm`
(StrategyForm.js 31-52). -/
structure FormData where
  strike : ℚ
  quantity : ℚ
  premium : ℚ
  volatility : ℚ

/-- The error object built by `validateForm` (StrategyForm.js 31-52).
JS truthiness: `!x` on a number is true exactly when the number is 0
(`NaN` is outside this exact-rational model). -/
def validationErrors (f : FormData) : List String :=
  (if f.strike = 0 ∨ f.strike ≤ 0 then ["strike"] else []) ++
  (if f.quantity = 0 ∨ f.quantity ≤ 0 then ["quantity"] else []) ++
  (if f.premium = 0 ∨ f.premium < 0 then ["premium"] else []) ++
  (if f.volatility = 0 ∨ f.volatility < 0 ∨ 5 < f.volatility then ["volatility"] else [])

/-- `validateForm` returns true when no error was recorded. -/
def validateForm (f : FormData) : Bool :=
  (validationErrors f).isEmpty

/-- Spec-side leg validity, written from the claim's words: valid iff
`strike > 0`, `quantity > 0`, `premium ≥ 0` (zero premium accepted) and
`impliedVolatility ∈ (0, 5]`. -/
def specLegValid (f : FormData) : Prop :=
  0 < f.strike ∧ 0 < f.quantity ∧ 0 ≤ f.premium ∧ 0 < f.volatility ∧ f.volatility ≤ 5

lemma le_foldl_max {α β : Type} [LinearOrder β] (f : α → β) :
    ∀ (l : List α) (a : β), a ≤ l.foldl (fun acc x => max acc (f x)) a := by
  intro l
  induction l with
  | nil => intro a; exact le_refl a
  | cons x xs ih =>
    intro a
    exact le_trans (le_max_left a (f x)) (ih (max a (f x)))

lemma foldl_min_le {α β : Type} [LinearOrder β] (f : α → β) :
    ∀ (l : List α) (a : β), l.foldl (fun acc x => min acc (f x)) a ≤ a := by
  intro l
  induction l with
  | nil => intro a; exact le_refl a
  | cons x xs ih =>
    intro a
    exact le_trans (ih (min a (f x))) (min_le_left a (f x))

/-- Claim C2: for every strategy (any list of legs, including none) the
sweep-based `calculateMaxLoss` is never positive and `calculateMaxProfit`
is never negative, because both accumulators start at 0. -/
theorem maxLoss_nonpos_and_maxProfit_nonneg (options : List Leg) :
    calculateMaxLoss options ≤ 0 ∧ 0 ≤ calculateMaxProfit options :=
  ⟨foldl_min_le (totalPayoff options) sweepPrices 0,
   le_foldl_max (totalPayoff options) sweepPrices 0⟩

lemma foldl_append_if_eq_filter {α : Type} (p : α → Prop) [DecidablePred p] :
    ∀ (l : List α) (acc : List α),
      l.foldl (fun a x => if p x then a ++ [x] else a) acc = acc ++ l.filter (fun x => decide (p x)) := by
  intro l
  induction l with
  | nil => intro acc; simp
  | cons x xs ih =>
    intro acc
    by_cases h : p x
    · simp [h, ih, List.filter_cons]
    · simp [h, ih, List.filter_cons]

lemma foldl_add_eq_sum {α M : Type} [AddCommMonoid M] (g : α → M) :
    ∀ (l : List α) (a : M), l.foldl (fun acc x => acc + g x) a = a + (l.map g).sum := by
  intro l
  induction l with
  | nil => intro a; simp
  | cons x xs ih => intro a; simp [ih, add_assoc]

lemma totalPayoff_eq_map_sum (options : List Leg) (price : ℚ) :
    totalPayoff options price = (options.map fun o => legPayoff o price * (o.quantity : ℚ)).sum := by
  have h := foldl_add_eq_sum (fun o => legPayoff o price * (o.quantity : ℚ)) options 0
  simpa [totalPayoff] using h

lemma halfStepPrices_pairwise : halfStepPrices.Pairwise (· ≤ ·) := by
  unfold halfStepPrices
  refine List.Pairwise.map (fun i : ℕ => 50 + (i : ℚ) / 2) ?_ (List.pairwise_lt_range 401)
  intro i j hij
  have hq : (i : ℚ) ≤ (j : ℚ) := by exact_mod_cast Nat.le_of_lt hij
  simp only []
  linarith

/-- Claim C3: the breakeven list is exactly the filter of the half-step
sample prices by `|total payoff| < 0.01`, where the total payoff is the
signed quantity-weighted sum of the four per-leg payoff branches, and the
resulting list is ascending (no deduplication is performed). -/
theorem breakeven_eq_filter_and_sorted (options : List Leg) :
    calculateBreakeven options =
      halfStepPrices.filter
        (fun price => decide
          (|(options.map fun o =>
              (match o.type, o.action with
               | .call, .buy => max 0 (price - (o.strike : ℚ)) - (o.premium : ℚ)
               | .call, .sell => (o.premium : ℚ) - max 0 (price - (o.strike : ℚ))
               | .put, .buy => max 0 ((o.strike : ℚ) - price) - (o.premium : ℚ)
               | .put, .sell => (o.premium : ℚ) - max 0 ((o.strike : ℚ) - price)) *
              (o.quantity : ℚ)).sum| < 1 / 100)) ∧
    (calculateBreakeven options).Pairwise (· ≤ ·) := by
  have hbody : calculateBreakeven options =
      halfStepPrices.filter
        (fun price => decide (|totalPayoff options price| < 1 / 100)) := by
    have h := foldl_append_if_eq_filter
      (fun price => |totalPayoff options price| < 1 / 100) halfStepPrices []
    simpa [calculateBreakeven] using h
  have hform : ∀ price : ℚ,
      totalPayoff options price =
        (options.map fun o =>
          (match o.type, o.action with
           | OptionType.call, Action.buy => max 0 (price - (o.strike : ℚ)) - (o.premium : ℚ)
           | OptionType.call, Action.sell => (o.premium : ℚ) - max 0 (price - (o.strike : ℚ))
           | OptionType.put, Action.buy => max 0 ((o.strike : ℚ) - price) - (o.premium : ℚ)
           | OptionType.put, Action.sell => (o.premium : ℚ) - max 0 ((o.strike : ℚ) - price)) *
          (o.quantity : ℚ)).sum := by
    intro price
    rw [totalPayoff_eq_map_sum]
    rfl
  constructor
  · rw [hbody]
    refine List.filter_congr ?_
    intro price _
    rw [decide_eq_decide]
    rw [hform price]
  · rw [hbody]
    exact halfStepPrices_pairwise.filter _

lemma specNormCDF_eq : specNormCDF = normCDF := rfl

lemma specNormPDF_eq : specNormPDF = normPDF := rfl

lemma specD1_eq (S K T r sigma : ℝ) :
    specD1 S K T r sigma =
      (Real.log (S / K) + (r + 0.5 * sigma * sigma) * T) / (sigma * Real.sqrt T) := by
  unfold specD1
  ring

lemma specD2_eq (S K T r sigma : ℝ) :
    specD2 S K T r sigma =
      (Real.log (S / K) + (r + 0.5 * sigma * sigma) * T) / (sigma * Real.sqrt T) -
        sigma * Real.sqrt T := by
  unfold specD2
  rw [specD1_eq]

lemma exp_neg_arg (r T : ℝ) : Real.exp (-(r * T)) = Real.exp (-r * T) := by
  norm_num

lemma blackScholesLegSpec_holds (S K T r sigma : ℝ) : BlackScholesLegSpec S K T r sigma := by
  unfold BlackScholesLegSpec
  refine ⟨?_, ?_, fun ty => ?_, fun ty => ?_, ?_, ?_, ?_, ?_⟩ <;>
    simp only [calculateBlackScholesGreeks, specNormCDF_eq, specNormPDF_eq, specD1_eq,
      specD2_eq, exp_neg_arg]

lemma greeksFold_eq (spot : ℝ) (l : List Leg) :
    ∀ init : Greeks,
      (l.foldl
        (fun tot o =>
          let greeks := legGreeksAt spot o
          let multiplier : ℝ := ((legMultiplier o : ℚ) : ℝ)
          { delta := tot.delta + greeks.delta * multiplier,
            gamma := tot.gamma + greeks.gamma * multiplier,
            theta := tot.theta + greeks.theta * multiplier,
            vega := tot.vega + greeks.vega * multiplier,
            rho := tot.rho + greeks.rho * multiplier })
        init) =
      { delta := init.delta + (l.map fun o => (legGreeksAt spot o).delta * ((legMultiplier o : ℚ) : ℝ)).sum,
        gamma := init.gamma + (l.map fun o => (legGreeksAt spot o).gamma * ((legMultiplier o : ℚ) : ℝ)).sum,
        theta := init.theta + (l.map fun o => (legGreeksAt spot o).theta * ((legMultiplier o : ℚ) : ℝ)).sum,
        vega := init.vega + (l.map fun o => (legGreeksAt spot o).vega * ((legMultiplier o : ℚ) : ℝ)).sum,
        rho := init.rho + (l.map fun o => (legGreeksAt spot o).rho * ((legMultiplier o : ℚ) : ℝ)).sum } := by
  induction l with
  | nil =>
    intro init
    ext <;> simp
  | cons x xs ih =>
    intro init
    rw [List.foldl_cons, ih]
    ext <;> simp <;> ring

lemma legTerm_eq (spot : ℝ) (o : Leg) (f : Greeks → ℝ) :
    f (legGreeksAt spot o) * ((legMultiplier o : ℚ) : ℝ) =
      ((if o.action = Action.buy then (1 : ℝ) else -1) * (o.quantity : ℝ)) *
        f (calculateBlackScholesGreeks spot (o.strike : ℝ) (30 / 365) 0.05
            ((o.volatility.getD 0.2 : ℚ) : ℝ) o.type) := by
  rcases o with ⟨st, ty, ac, q, pr, vol⟩
  cases ac <;>
    · simp only [legGreeksAt, legMultiplier]
      push_cast
      ring

lemma calculateGreeks_eq_specAggregate (options : List Leg) (spot : ℝ) :
    calculateGreeks options spot = specAggregateGreeks options spot := by
  unfold calculateGreeks specAggregateGreeks
  rw [greeksFold_eq]
  ext <;>
    · simp only [zero_add]
      congr 1
      refine List.map_congr_left ?_
      intro o _
      exact legTerm_eq spot o _

/-- Claim C1: for positive spot, strike, time and volatility, the per-leg
Greeks of `calculateBlackScholesGreeks` are the Black-Scholes closed forms
stated in the spec (with `N` the listed Abramowitz-Stegun approximation and
reported theta/365, vega/100, rho/100 scalings, delta and gamma unscaled),
and the aggregate `calculateGreeks` evaluates every leg at `T = 30/365`,
`r = 0.05` with the leg's own volatility (default 0.20), weights by
`(+1 if buy else -1) * quantity`, and sums over the legs. -/
theorem blackScholes_greeks_match_spec (S K T r sigma : ℝ)
    (hS : 0 < S) (hK : 0 < K) (hT : 0 < T) (hsigma : 0 < sigma) :
    BlackScholesLegSpec S K T r sigma ∧
      ∀ (options : List Leg) (spot : ℝ),
        calculateGreeks options spot = specAggregateGreeks options spot :=
  ⟨blackScholesLegSpec_holds S K T r sigma,
   fun options spot => calculateGreeks_eq_specAggregate options spot⟩

/-- Witness for C1 at the concrete point S = 100, K = 95, T = 1, r = 0.05,
sigma = 0.2. -/
theorem blackScholes_greeks_match_spec_witness :
    ((0 : ℝ) < 100 ∧ (0 : ℝ) < 95 ∧ (0 : ℝ) < 1 ∧ (0 : ℝ) < 0.2) ∧
      (BlackScholesLegSpec 100 95 1 0.05 0.2 ∧
        ∀ (options : List Leg) (spot : ℝ),
          calculateGreeks options spot = specAggregateGreeks options spot) :=
  ⟨⟨by norm_num, by norm_num, by norm_num, by norm_num⟩,
   blackScholes_greeks_match_spec 100 95 1 0.05 0.2
     (by norm_num) (by norm_num) (by norm_num) (by norm_num)⟩

lemma foldl_count_le {α : Type} (p : α → Prop) [DecidablePred p] :
    ∀ (l : List α) (a : ℕ),
      l.foldl (fun acc x => if p x then acc + 1 else acc) a ≤ a + l.length := by
  intro l
  induction l with
  | nil => intro a; simp
  | cons x xs ih =>
    intro a
    by_cases h : p x
    · simp only [List.foldl_cons, h, if_pos, List.length_cons]
      calc xs.foldl (fun acc x => if p x then acc + 1 else acc) (a + 1)
          ≤ a + 1 + xs.length := ih (a + 1)
        _ = a + (xs.length + 1) := by omega
    · simp only [List.foldl_cons, h, if_neg, List.length_cons, not_false_iff]
      calc xs.foldl (fun acc x => if p x then acc + 1 else acc) a
          ≤ a + xs.length := ih a
        _ ≤ a + (xs.length + 1) := by omega

lemma profitableOutcomes_le (options : List Leg) (currentPrice : ℝ) (u : ℕ → ℝ) :
    profitableOutcomes options currentPrice u ≤ 1000 := by
  have h := foldl_count_le
    (fun i => 0 < totalPayoff options (simulatedPrice currentPrice (u i)))
    (List.range 1000) 0
  simpa [profitableOutcomes] using h

/-- Claim C4: `calculateProbabilityOfProfit` runs exactly 1000 trials, each
drawing one uniform variate, pricing the strategy at
`spot * exp((u - 0.5) * 0.2 * sqrt(30/365) * 2)` and counting strictly
positive payoffs; the result is `100 * profitableTrials / 1000` and always
lies in `[0, 100]`. -/
theorem probabilityOfProfit_formula_and_range (options : List Leg) (currentPrice : ℝ)
    (u : ℕ → ℝ) :
    calculateProbabilityOfProfit options currentPrice u =
      100 * (profitableOutcomes options currentPrice u : ℝ) / 1000 ∧
    profitableOutcomes options currentPrice u ≤ 1000 ∧
    0 ≤ calculateProbabilityOfProfit options currentPrice u ∧
    calculateProbabilityOfProfit options currentPrice u ≤ 100 := by
  have hle := profitableOutcomes_le options currentPrice u
  have hcast : (profitableOutcomes options currentPrice u : ℝ) ≤ 1000 := by
    exact_mod_cast hle
  have hpos : (0 : ℝ) ≤ (profitableOutcomes options currentPrice u : ℝ) := by positivity
  refine ⟨by unfold calculateProbabilityOfProfit; ring, hle, ?_, ?_⟩
  · unfold calculateProbabilityOfProfit
    positivity
  · unfold calculateProbabilityOfProfit
    nlinarith

/-- Claim C5: a zero-leg strategy yields the degenerate analysis state
(max profit 0, max loss 0, no breakevens, probability of profit 0, no
strategy label), with no computation raising: the component guard keeps the
zero-initialized state and renders no label. -/
theorem empty_strategy_degenerate (currentPrice : ℝ) (u : ℕ → ℝ) :
    (analysisDataFor [] currentPrice u).maxProfit = 0 ∧
    (analysisDataFor [] currentPrice u).maxLoss = 0 ∧
    (analysisDataFor [] currentPrice u).breakeven = [] ∧
    (analysisDataFor [] currentPrice u).probabilityOfProfit = 0 ∧
    renderedStrategyLabel [] = none := by
  refine ⟨rfl, rfl, rfl, rfl, rfl⟩

/-- Claim C8 is violated by the code (code bug): a leg with premium exactly
0 and all other fields valid satisfies the claim's validity predicate, yet
`validateForm` rejects it, because the JS truthiness test
`!formData.premium` is true for 0 — contradicting the code's own error
message "Premium must be 0 or greater". -/
theorem premium_zero_rejected :
    validateForm { strike := 100, quantity := 1, premium := 0, volatility := 0.2 } = false ∧
    specLegValid { strike := 100, quantity := 1, premium := 0, volatility := 0.2 } := by
  constructor
  · decide
  · refine ⟨by norm_num, by norm_num, le_refl 0, by norm_num, by norm_num⟩

lemma multiplier_comm (o : Leg) (x : ℝ) :
    x * ((legMultiplier o : ℚ) : ℝ) =
      ((if o.action = Action.buy then (1 : ℝ) else -1) * (o.quantity : ℝ)) * x := by
  rcases o with ⟨st, ty, ac, q, pr, vol⟩
  cases ac <;>
    · simp only [legMultiplier]
      push_cast
      ring

set_option maxHeartbeats 1000000 in
lemma volLoopVols_eval :
    volLoopVols 100 0.1 = [0.1, 0.15, 0.2, 0.25, 0.3, 0.35, 0.4, 0.45, 0.5] := by
  norm_num [volLoopVols]

/-- Claim C9: the volatility-impact projector emits exactly 9 samples, one
per volatility 0.10, 0.15, ..., 0.50, each pairing `vol * 100` with the
signed quantity-weighted aggregate vega at `T = 30/365`, `r = 0.05` and the
given spot. -/
theorem volatilityImpact_nine_samples (options : List Leg) (spotPrice : ℝ) :
    (calculateVolatilityImpact options spotPrice).length = 9 ∧
    calculateVolatilityImpact options spotPrice =
      ([0.1, 0.15, 0.2, 0.25, 0.3, 0.35, 0.4, 0.45, 0.5] : List ℚ).map
        (fun vol => ((vol * 100 : ℚ),
          (options.map fun o =>
            ((if o.action = Action.buy then (1 : ℝ) else -1) * (o.quantity : ℝ)) *
              (calculateBlackScholesGreeks spotPrice (o.strike : ℝ) (30 / 365) 0.05
                ((vol : ℚ) : ℝ) o.type).vega).sum)) := by
  constructor
  · unfold calculateVolatilityImpact
    rw [volLoopVols_eval]
    rfl
  · unfold calculateVolatilityImpact
    rw [volLoopVols_eval]
    refine List.map_congr_left ?_
    intro vol _
    have hsum : (options.foldl (fun acc o => acc +
        (calculateBlackScholesGreeks spotPrice (o.strike : ℝ) (30 / 365) 0.05
          ((vol : ℚ) : ℝ) o.type).vega * ((legMultiplier o : ℚ) : ℝ)) 0) =
        (options.map fun o =>
          ((if o.action = Action.buy then (1 : ℝ) else -1) * (o.quantity : ℝ)) *
            (calculateBlackScholesGreeks spotPrice (o.strike : ℝ) (30 / 365) 0.05
              ((vol : ℚ) : ℝ) o.type).vega).sum := by
      rw [foldl_add_eq_sum
        (fun o => (calculateBlackScholesGreeks spotPrice (o.strike : ℝ) (30 / 365) 0.05
          ((vol : ℚ) : ℝ) o.type).vega * ((legMultiplier o : ℚ) : ℝ)) options 0, zero_add]
      congr 1
      refine List.map_congr_left ?_
      intro o _
      exact multiplier_comm o _
    exact congrArg (Prod.mk ((vol * 100 : ℚ))) hsum

lemma jsAdd_nan (x : JSVal) : jsAdd .nan x = .nan := by cases x <;> rfl

lemma jsAdd_num_nan (a : ℝ) : jsAdd (.num a) .nan = .nan := rfl

lemma jsAdd_num_num (a b : ℝ) : jsAdd (.num a) (.num b) = .num (a + b) := rfl

lemma jsNeg_num (a : ℝ) : jsNeg (.num a) = .num (-a) := rfl

lemma jsNeg_nan : jsNeg .nan = .nan := rfl

lemma jsSub_num_num (a b : ℝ) : jsSub (.num a) (.num b) = .num (a + -b) := rfl

lemma jsSub_num_nan (a : ℝ) : jsSub (.num a) .nan = .nan := rfl

lemma jsSub_nan (y : JSVal) : jsSub .nan y = .nan := by cases y <;> rfl

lemma jsAdd_nan_right (x : JSVal) : jsAdd x .nan = .nan := by cases x <;> rfl

lemma jsMul_nan_right (x : JSVal) : jsMul x .nan = .nan := by cases x <;> rfl

lemma jsDiv_nan_right (x : JSVal) : jsDiv x .nan = .nan := by cases x <;> rfl

lemma jsSub_nan_right (x : JSVal) : jsSub x .nan = .nan := by cases x <;> rfl

lemma jsSqrt_nan : jsSqrt .nan = .nan := rfl

lemma jsMul_nan (x : JSVal) : jsMul .nan x = .nan := by cases x <;> rfl

lemma jsMul_num_nan (a : ℝ) : jsMul (.num a) .nan = .nan := rfl

lemma jsMul_num_num (a b : ℝ) : jsMul (.num a) (.num b) = .num (a * b) := rfl

lemma jsDiv_nan (x : JSVal) : jsDiv .nan x = .nan := by cases x <;> rfl

lemma jsDiv_num_nan (a : ℝ) : jsDiv (.num a) .nan = .nan := rfl

lemma jsDiv_nan_num (b : ℝ) : jsDiv .nan (.num b) = .nan := rfl

lemma jsDiv_num_num_of_ne (a b : ℝ) (h : b ≠ 0) : jsDiv (.num a) (.num b) = .num (a / b) := by
  simp [jsDiv, h]

lemma jsDiv_zero_zero : jsDiv (.num 0) (.num 0) = .nan := by
  simp [jsDiv]

lemma jsDiv_num_zero_pos (a : ℝ) (h : 0 < a) : jsDiv (.num a) (.num 0) = .inf := by
  simp [jsDiv, h, h.ne']

lemma jsAbs_num (a : ℝ) : jsAbs (.num a) = .num |a| := rfl

lemma jsAbs_nan : jsAbs .nan = .nan := rfl

lemma jsExp_num (a : ℝ) : jsExp (.num a) = .num (Real.exp a) := rfl

lemma jsExp_nan : jsExp .nan = .nan := rfl

lemma jsSqrt_num_of_nonneg (a : ℝ) (h : 0 ≤ a) : jsSqrt (.num a) = .num (Real.sqrt a) := by
  simp [jsSqrt, h]

lemma jsSqrt_zero : jsSqrt (.num 0) = .num 0 := by
  simp [jsSqrt]

lemma jsLog_num_of_pos (a : ℝ) (h : 0 < a) : jsLog (.num a) = .num (Real.log a) := by
  simp [jsLog, h]

lemma jsMin_nan (x : JSVal) : jsMin .nan x = .nan := by cases x <;> rfl

lemma jsMin_num_nan (a : ℝ) : jsMin (.num a) .nan = .nan := rfl

lemma jsMin_inf_num (b : ℝ) : jsMin .inf (.num b) = .num b := rfl

lemma jsMin_num_num (a b : ℝ) : jsMin (.num a) (.num b) = .num (min a b) := rfl

lemma jsMax_num_nan (a : ℝ) : jsMax (.num a) .nan = .nan := rfl

lemma jsMax_num_num (a b : ℝ) : jsMax (.num a) (.num b) = .num (max a b) := rfl

lemma jsNormPDF_nan : jsNormPDF .nan = .nan := by
  simp [jsNormPDF, jsMul_nan, jsMul_nan_right, jsExp_nan, jsDiv_nan]

lemma jsNormCDF_nan : jsNormCDF .nan = .nan := by
  simp [jsNormCDF, jsErf, jsDiv_nan, jsDiv_nan_right, jsAbs_nan, jsMul_nan, jsMul_nan_right,
    jsAdd_nan, jsAdd_nan_right, jsNeg_nan, jsExp_nan, jsSub_nan, jsSub_nan_right]

lemma foldl_max_of_const {f : ℚ → ℚ} {c : ℚ} :
    ∀ (l : List ℚ), (∀ p ∈ l, f p = c) → ∀ a : ℚ,
      l.foldl (fun acc p => max acc (f p)) a = if l.isEmpty then a else max a c := by
  intro l
  induction l with
  | nil => intro _ a; rfl
  | cons x xs ih =>
    intro h a
    have hx : f x = c := h x (List.mem_cons_self x xs)
    have hxs : ∀ p ∈ xs, f p = c := fun p hp => h p (List.mem_cons_of_mem x hp)
    simp only [List.foldl_cons, hx, ih hxs (max a c), List.isEmpty_cons]
    by_cases he : xs.isEmpty
    · simp [he]
    · simp [he, max_assoc]

lemma foldl_min_of_const {f : ℚ → ℚ} {c : ℚ} :
    ∀ (l : List ℚ), (∀ p ∈ l, f p = c) → ∀ a : ℚ,
      l.foldl (fun acc p => min acc (f p)) a = if l.isEmpty then a else min a c := by
  intro l
  induction l with
  | nil => intro _ a; rfl
  | cons x xs ih =>
    intro h a
    have hx : f x = c := h x (List.mem_cons_self x xs)
    have hxs : ∀ p ∈ xs, f p = c := fun p hp => h p (List.mem_cons_of_mem x hp)
    simp only [List.foldl_cons, hx, ih hxs (min a c), List.isEmpty_cons]
    by_cases he : xs.isEmpty
    · simp [he]
    · simp [he, min_assoc]

lemma sweepPrices_not_empty : sweepPrices.isEmpty = false := by
  simp [sweepPrices, List.isEmpty_iff, List.range_succ]

lemma mem_sweepPrices_le {p : ℚ} (hp : p ∈ sweepPrices) : p ≤ 250 := by
  rw [sweepPrices] at hp
  obtain ⟨i, hi, heq⟩ := (List.mem_map (f := fun i : ℕ => 50 + (i : ℚ))).mp hp
  rw [List.mem_range] at hi
  have h200 : (i : ℚ) ≤ 200 := by exact_mod_cast Nat.le_of_lt_succ hi
  subst heq
  show (50 : ℚ) + (i : ℚ) ≤ 250
  linarith

lemma pop_nonneg (options : List Leg) (currentPrice : ℝ) (u : ℕ → ℝ) :
    0 ≤ calculateProbabilityOfProfit options currentPrice u := by
  unfold calculateProbabilityOfProfit
  positivity

lemma pop_le_100 (options : List Leg) (currentPrice : ℝ) (u : ℕ → ℝ) :
    calculateProbabilityOfProfit options currentPrice u ≤ 100 := by
  have hle := profitableOutcomes_le options currentPrice u
  have hcast : (profitableOutcomes options currentPrice u : ℝ) ≤ 1000 := by exact_mod_cast hle
  unfold calculateProbabilityOfProfit
  nlinarith

lemma jsBS_theta_nan_at_T_zero :
    (jsBlackScholesGreeks (.num 100) (.num 100) (.num 0) (.num (1 / 20)) (.num (1 / 5))
      OptionType.call).theta = JSVal.nan := by
  norm_num [jsBlackScholesGreeks, jsDiv, jsLog, jsSqrt, jsMul, jsAdd, jsSub, jsNeg, jsExp,
    jsNormPDF_nan, jsNormCDF_nan]

lemma riskScore_of_nan (x y : ℝ) : calculateRiskScore (.num x) (.num y) .nan = .nan := by
  norm_num [calculateRiskScore, jsMin_nan, jsMin_num_nan, jsMax_num_nan, jsSub_num_nan,
    jsAdd_num_nan, jsAdd_nan_right, jsMul_nan, jsMul_nan_right, jsDiv, jsAbs_num,
    jsMin_num_num, jsMax_num_num, jsAdd_num_num, jsMul_num_num, jsSub_num_num]

lemma riskScore_of_inf (y : ℝ) :
    calculateRiskScore (.num 0) (.num y) .inf = .num (min 10 ((1 + -(y / 100)) * 4)) := by
  have hm : max (0 : ℝ) (2 + -3) = 0 := max_eq_left (by norm_num)
  norm_num [calculateRiskScore, jsMin_inf_num, jsDiv, jsAbs_num, jsSub_num_num,
    jsMax_num_num, jsMul_num_num, jsAdd_num_num, jsMin_num_num, hm]

/-- Claim C6 is contradicted by the code (code bug): the Greeks formula has
no `T = 0` guard, so the time-decay projector's final sample — `days = 0`,
hence `timeToExpiry = 0` — evaluates `d1 = 0/0 = NaN` and emits a NaN
theta.  Shown here for a single bought call at the money: the projector
does produce 31 points, but point 30 (the `T = 0` sample) carries
`theta = NaN`, not a NaN-free sentinel. -/
theorem timeDecay_T_zero_sample_nan :
    (calculateTimeDecay [⟨100, .call, .buy, 1, 5, some 0.2⟩] 100).length = 31 ∧
    (calculateTimeDecay [⟨100, .call, .buy, 1, 5, some 0.2⟩] 100)[30]? =
      some (30, JSVal.nan) := by
  constructor
  · simp [calculateTimeDecay]
  · have hr : (List.range 31)[30]? = some 30 := by simp
    unfold calculateTimeDecay
    rw [List.getElem?_map, hr]
    norm_num [List.foldl_cons, List.foldl_nil, timeDecayVol, legMultiplier,
      jsBS_theta_nan_at_T_zero, jsMul_nan, jsAdd_num_nan]

/-- Claim C7 is contradicted by the code (code bug): for a strategy whose
payoff is identically zero on the sweep (a bought and a sold call with the
same strike and premium), `maxProfit = maxLoss = 0`, the unguarded
`riskReward = maxProfit / Math.abs(maxLoss)` at Analysis.js line 47 is
`0/0 = NaN` — no sentinel — and that NaN flows silently through
`calculateRiskScore`, making the risk score itself NaN. -/
theorem riskReward_nan_leaks_into_riskScore :
    calculateMaxProfit [⟨100, .call, .buy, 1, 5, some 0.2⟩, ⟨100, .call, .sell, 1, 5, some 0.2⟩] = 0 ∧
    calculateMaxLoss [⟨100, .call, .buy, 1, 5, some 0.2⟩, ⟨100, .call, .sell, 1, 5, some 0.2⟩] = 0 ∧
    (calculateAnalysis [⟨100, .call, .buy, 1, 5, some 0.2⟩, ⟨100, .call, .sell, 1, 5, some 0.2⟩]
      100 (fun _ => 1 / 2)).riskReward = JSVal.nan ∧
    calculateRiskScore
      (.num ((calculateMaxLoss [⟨100, .call, .buy, 1, 5, some 0.2⟩, ⟨100, .call, .sell, 1, 5, some 0.2⟩] : ℚ) : ℝ))
      (.num (calculateProbabilityOfProfit [⟨100, .call, .buy, 1, 5, some 0.2⟩, ⟨100, .call, .sell, 1, 5, some 0.2⟩]
        100 (fun _ => 1 / 2)))
      ((calculateAnalysis [⟨100, .call, .buy, 1, 5, some 0.2⟩, ⟨100, .call, .sell, 1, 5, some 0.2⟩]
        100 (fun _ => 1 / 2)).riskReward) = JSVal.nan := by
  have hpay : ∀ p ∈ sweepPrices,
      totalPayoff [⟨100, .call, .buy, 1, 5, some 0.2⟩, ⟨100, .call, .sell, 1, 5, some 0.2⟩] p = 0 := by
    intro p _
    simp only [totalPayoff, List.foldl_cons, List.foldl_nil, legPayoff, Rat.cast_id]
    ring
  have hmp : calculateMaxProfit
      [⟨100, .call, .buy, 1, 5, some 0.2⟩, ⟨100, .call, .sell, 1, 5, some 0.2⟩] = 0 := by
    unfold calculateMaxProfit
    rw [foldl_max_of_const sweepPrices hpay 0]
    simp [sweepPrices_not_empty]
  have hml : calculateMaxLoss
      [⟨100, .call, .buy, 1, 5, some 0.2⟩, ⟨100, .call, .sell, 1, 5, some 0.2⟩] = 0 := by
    unfold calculateMaxLoss
    rw [foldl_min_of_const sweepPrices hpay 0]
    simp [sweepPrices_not_empty]
  have hrr : (calculateAnalysis [⟨100, .call, .buy, 1, 5, some 0.2⟩, ⟨100, .call, .sell, 1, 5, some 0.2⟩]
      100 (fun _ => 1 / 2)).riskReward = JSVal.nan := by
    show jsDiv
      (.num ((calculateMaxProfit [⟨100, .call, .buy, 1, 5, some 0.2⟩, ⟨100, .call, .sell, 1, 5, some 0.2⟩] : ℚ) : ℝ))
      (jsAbs (.num ((calculateMaxLoss [⟨100, .call, .buy, 1, 5, some 0.2⟩, ⟨100, .call, .sell, 1, 5, some 0.2⟩] : ℚ) : ℝ))) =
      JSVal.nan
    rw [hmp, hml]
    norm_num [jsAbs_num, jsDiv_zero_zero]
  refine ⟨hmp, hml, hrr, ?_⟩
  rw [hrr]
  exact riskScore_of_nan _ _

/-- Claim C10: whenever the computed `maxLoss` is exactly 0 and `maxProfit`
is strictly positive, the unguarded division makes `riskReward = Infinity`,
`Math.min(riskReward, 3)` caps it to exactly 3, the `max(0, 2 - 3)` term
contributes 0, and the resulting risk score is a finite real in `[0, 10]`. -/
theorem riskScore_capped_when_maxLoss_zero (options : List Leg) (currentPrice : ℝ) (u : ℕ → ℝ)
    (hml : calculateMaxLoss options = 0) (hmp : 0 < calculateMaxProfit options) :
    (calculateAnalysis options currentPrice u).riskReward = JSVal.inf ∧
    jsMin ((calculateAnalysis options currentPrice u).riskReward) (.num 3) = .num 3 ∧
    jsMax (.num 0) (jsSub (.num 2) (.num 3)) = .num 0 ∧
    ∃ s : ℝ,
      calculateRiskScore (.num ((calculateMaxLoss options : ℚ) : ℝ))
          (.num (calculateProbabilityOfProfit options currentPrice u))
          ((calculateAnalysis options currentPrice u).riskReward) = .num s ∧
        0 ≤ s ∧ s ≤ 10 := by
  have hrr : (calculateAnalysis options currentPrice u).riskReward = JSVal.inf := by
    show jsDiv (.num ((calculateMaxProfit options : ℚ) : ℝ))
      (jsAbs (.num ((calculateMaxLoss options : ℚ) : ℝ))) = JSVal.inf
    rw [hml]
    have hpos : (0 : ℝ) < ((calculateMaxProfit options : ℚ) : ℝ) := by exact_mod_cast hmp
    norm_num [jsAbs_num]
    exact jsDiv_num_zero_pos _ hpos
  have hpop0 := pop_nonneg options currentPrice u
  have hpop100 := pop_le_100 options currentPrice u
  refine ⟨hrr, ?_, ?_, ?_⟩
  · rw [hrr]
    rfl
  · rw [jsSub_num_num, jsMax_num_num]
    have hm : max (0 : ℝ) (2 + -3) = 0 := max_eq_left (by norm_num)
    rw [hm]
  · rw [hrr, hml]
    refine ⟨min 10 ((1 + -(calculateProbabilityOfProfit options currentPrice u / 100)) * 4),
      ?_, ?_, ?_⟩
    · rw [show (((0 : ℚ) : ℝ)) = (0 : ℝ) by norm_num]
      exact riskScore_of_inf _
    · refine le_min (by norm_num) ?_
      nlinarith
    · exact min_le_left _ _

lemma c10_totalPayoff {p : ℚ} (hp : p ∈ sweepPrices) :
    totalPayoff [⟨300, .call, .sell, 1, 5, none⟩] p = 5 := by
  have h250 := mem_sweepPrices_le hp
  simp only [totalPayoff, List.foldl_cons, List.foldl_nil, legPayoff, Rat.cast_id]
  have hmax : max (0 : ℚ) (p - 300) = 0 := max_eq_left (by linarith)
  rw [hmax]
  ring

lemma c10_maxProfit : calculateMaxProfit [⟨300, .call, .sell, 1, 5, none⟩] = 5 := by
  unfold calculateMaxProfit
  rw [foldl_max_of_const sweepPrices (fun p hp => c10_totalPayoff hp) 0]
  rw [sweepPrices_not_empty]
  norm_num [max_eq_right]

lemma c10_maxLoss : calculateMaxLoss [⟨300, .call, .sell, 1, 5, none⟩] = 0 := by
  unfold calculateMaxLoss
  rw [foldl_min_of_const sweepPrices (fun p hp => c10_totalPayoff hp) 0]
  rw [sweepPrices_not_empty]
  norm_num [min_eq_left]

/-- Witness for C10: the single sold call at strike 300, premium 5, has
payoff identically 5 on the sweep, so `maxLoss = 0 < 5 = maxProfit`. -/
theorem riskScore_capped_when_maxLoss_zero_witness :
    calculateMaxLoss [⟨300, .call, .sell, 1, 5, none⟩] = 0 ∧
    0 < calculateMaxProfit [⟨300, .call, .sell, 1, 5, none⟩] ∧
    ((calculateAnalysis [⟨300, .call, .sell, 1, 5, none⟩] 100 (fun _ => 1 / 2)).riskReward = JSVal.inf ∧
      jsMin ((calculateAnalysis [⟨300, .call, .sell, 1, 5, none⟩] 100 (fun _ => 1 / 2)).riskReward)
        (.num 3) = .num 3 ∧
      jsMax (.num 0) (jsSub (.num 2) (.num 3)) = .num 0 ∧
      ∃ s : ℝ,
        calculateRiskScore
            (.num ((calculateMaxLoss [⟨300, .call, .sell, 1, 5, none⟩] : ℚ) : ℝ))
            (.num (calculateProbabilityOfProfit [⟨300, .call, .sell, 1, 5, none⟩] 100 (fun _ => 1 / 2)))
            ((calculateAnalysis [⟨300, .call, .sell, 1, 5, none⟩] 100 (fun _ => 1 / 2)).riskReward) = .num s ∧
          0 ≤ s ∧ s ≤ 10) :=
  ⟨c10_maxLoss, by rw [c10_maxProfit]; norm_num,
   riskScore_capped_when_maxLoss_zero [⟨300, .call, .sell, 1, 5, none⟩] 100 (fun _ => 1 / 2)
     c10_maxLoss (by rw [c10_maxProfit]; norm_num)⟩

end OptionsAnalyzer
